import Mathlib

/-!
# Verification of the MinWrite stats ledger and sprint timer

A shallow embedding of the session-statistics / sprint-timer core of
`script.js`, with theorems settling the specification claims about it.

Modelling conventions:
* Local date stamps (`YYYY-MM-DD` strings) are totally ordered calendar
  days; we embed them as integers counting days since the Unix epoch.
  Subtracting two `new Date("YYYY-MM-DD")` values (both parsed at UTC
  midnight) and dividing by 86400000 yields exactly the difference of the
  two day indices, so `(new Date(today) - new Date(last)) / 86400000`
  becomes integer subtraction.  `new Date(null)` is the epoch, i.e. day 0.
* JavaScript numbers holding the counters are embedded as `Int`.
* The asynchronous Dexie store is embedded as an explicit record of the
  three core keys (`wt:typingTime`, `wt:sessionStats`, `wt:streakData`);
  a missing key is `none`.  Each storage-mutating routine becomes a pure
  state-transition function on that record, the committed transaction
  being its single successful path.
* Debounced callbacks are modelled as running synchronously at the point
  they are scheduled, with the values they would read at fire time.
-/

/-- `TypingTime`: the value stored under key `wt:typingTime`
(`{ date, time }`, milliseconds of active typing accumulated today). -/
structure TypingTime where
  date : Int
  time : Int
deriving Repr, DecidableEq

/-- `SessionStats`: the value stored under key `wt:sessionStats`
(`{ date, words, minutes, sprints, bestSprint }`). -/
structure SessionStats where
  date : Int
  words : Int
  minutes : Int
  sprints : Int
  bestSprint : Int
deriving Repr, DecidableEq

/-- `StreakData`: the value stored under key `wt:streakData`
(`{ count, record, lastDate }`, `lastDate` may be `null`). -/
structure StreakData where
  count : Int
  record : Int
  lastDate : Option Int
deriving Repr, DecidableEq

/-- The three core keys of the Dexie `content` store; `none` models an
absent key. -/
structure StoreState where
  typingTime : Option TypingTime
  sessionStats : Option SessionStats
  streakData : Option StreakData
deriving Repr, DecidableEq

/-- The `|| { count: 0, record: 0, lastDate: null }` fallback used when
`wt:streakData` is absent (script.js:1266-1270). -/
def defaultStreak : StreakData :=
  { count := 0, record := 0, lastDate := none }

/-- The fresh zeroed `SessionStats` literal for today's date, used both as
the absent-key fallback and as the day-rollover replacement record
(script.js:1285-1301). -/
def freshSession (today : Int) : SessionStats :=
  { date := today, words := 0, minutes := 0, sprints := 0, bestSprint := 0 }

/-- `new Date(currentStreak.lastDate)` as a day index: a stored stamp
parses to its own day, and `new Date(null)` is the epoch, day 0
(script.js:1273). -/
def jsDateValue : Option Int → Int
  | none => 0
  | some d => d

/-- `savedTyping?.value?.time || 0` (script.js:1303). -/
def typingMs : Option TypingTime → Int
  | none => 0
  | some t => t.time

/-- The streak update taken when the guard at script.js:1272 passes:
`diff = (new Date(todayStamp) - last) / 86400000`;
`count = diff === 1 ? count + 1 : 1`; `lastDate = todayStamp`;
`record = Math.max(record, count)` (script.js:1273-1280). -/
def streakAdvance (today : Int) (s : StreakData) : StreakData :=
  let last := jsDateValue s.lastDate
  let diff := today - last
  let count1 := if diff = 1 then s.count + 1 else 1
  { count := count1, record := max s.record count1, lastDate := some today }

/-- `updateAllStatsTransaction(wordsGained)` (script.js:1251-1312): the
committed effect of the atomic `rw` transaction over the three keys.
`today` is the `getLocalDateStamp()` value computed once at entry.
The streak record is written only when
`wordsGained > 0 && currentStreak.lastDate !== todayStamp`; the session
record is rolled to a fresh zeroed record when its `date` is stale, then
`minutes` is recomputed as `Math.floor(time / 60000)` (floor division)
and `wordsGained` is added to `words`. -/
def updateAllStatsTransaction (today wordsGained : Int) (st : StoreState) :
    StoreState :=
  let currentStreak := st.streakData.getD defaultStreak
  let streakData1 :=
    if 0 < wordsGained ∧ currentStreak.lastDate ≠ some today then
      some (streakAdvance today currentStreak)
    else
      st.streakData
  let currentSession := st.sessionStats.getD (freshSession today)
  let rolled :=
    if currentSession.date ≠ today then freshSession today else currentSession
  let mins := Int.fdiv (typingMs st.typingTime) 60000
  let final :=
    { rolled with minutes := mins, words := rolled.words + wordsGained }
  { st with streakData := streakData1, sessionStats := some final }

/-- `registerSprintResult(wordsGained)` (script.js:1315-1327): reads
`wt:sessionStats`; if absent, returns without writing; otherwise sets
`sprints = (sprints || 0) + 1` and
`bestSprint = Math.max(bestSprint || 0, wordsGained || 0)` and writes the
record back.  On the integer embedding `x || 0` is the identity (it only
maps the falsy value `0` to `0`).  Note the routine performs no date
check of its own. -/
def registerSprintResult (wordsGained : Int) (st : StoreState) : StoreState :=
  match st.sessionStats with
  | none => st
  | some session =>
    let session1 :=
      { session with
        sprints := session.sprints + 1
        bestSprint := max session.bestSprint wordsGained }
    { st with sessionStats := some session1 }

/-- A sequence of atomic stats transactions, each with its own
`getLocalDateStamp()` value and word delta. -/
def applyStatsSeq (ops : List (Int × Int)) (st : StoreState) : StoreState :=
  ops.foldl (fun s p => updateAllStatsTransaction p.1 p.2 s) st

/-- A sequence of atomic stats transactions all run on the same day. -/
def applyWordDeltaSeq (today : Int) (gs : List Int) (st : StoreState) :
    StoreState :=
  gs.foldl (fun s g => updateAllStatsTransaction today g s) st

/-- The streak record a transaction would operate on: the stored value,
or the zeroed default when the key is absent. -/
def streakOf (st : StoreState) : StreakData :=
  st.streakData.getD defaultStreak

/-- The `words` counter of the stored session record, if any. -/
def storedWords (st : StoreState) : Option Int :=
  st.sessionStats.map SessionStats.words

/-- The `status` field of the sprint manager's private state
(script.js:286). -/
inductive SprintStatus
  | idle
  | running
  | paused
  | finished
deriving Repr, DecidableEq

/-- The sprint manager's private `state` object (script.js:284-291).
`hasTock` models `state.tock !== null` (whether a countdown timer object
is alive). -/
structure SprintState where
  hasTock : Bool
  status : SprintStatus
  durationMs : Int
  startTime : Int
  startWords : Int
  wordsGained : Int
deriving Repr, DecidableEq

/-- The initial sprint manager state (script.js:284-291), which is also
exactly what `reset()` restores (script.js:456-468). -/
def initialSprintState : SprintState :=
  { hasTock := false, status := .idle, durationMs := 0, startTime := 0
    startWords := 0, wordsGained := 0 }

/-- The CSS state classes of the unified sprint pill, driven by
`updatePillClasses(add, remove)` (script.js:311-316).  The 500 ms
timeout scheduled on completion mutates only this display state. -/
structure SprintPill where
  running : Bool
  paused : Bool
  finished : Bool
deriving Repr, DecidableEq

/-- `start(minutes, currentWordCount)` (script.js:343-405): sets
`status = 'running'`, `startTime = Date.now()`,
`startWords = currentWordCount`, `durationMs = Math.max(1, minutes) *
60000`, `wordsGained = 0`, kills any prior timer and creates a new one,
and switches the pill classes to `running`. -/
def sprintStart (minutes currentWordCount now : Int)
    (s : SprintState) (p : SprintPill) : SprintState × SprintPill :=
  let s1 :=
    { s with
      status := .running
      startTime := now
      startWords := currentWordCount
      durationMs := max 1 minutes * 60000
      wordsGained := 0
      hasTock := true }
  (s1, { p with running := true, paused := false, finished := false })

/-- The `complete` callback of the countdown timer (script.js:374-400),
fired when the countdown reaches zero: computes
`wordsGained = Math.max(0, finalWords - startWords)`, sets
`status = 'finished'`, switches the pill classes to `finished`,
schedules the 500 ms display timeout (modelled separately as
`finishedFlashTimeout`), shows completion feedback, calls
`registerSprintResult(wordsGained)`, and clears the timer and
`durationMs`. -/
def sprintComplete (currentWordCount : Int) (s : SprintState)
    (p : SprintPill) (store : StoreState) :
    SprintState × SprintPill × StoreState :=
  let gained := max 0 (currentWordCount - s.startWords)
  let s1 :=
    { s with
      wordsGained := gained
      status := .finished
      hasTock := false
      durationMs := 0 }
  let p1 := { p with finished := true, running := false, paused := false }
  (s1, p1, registerSprintResult gained store)

/-- The 500 ms timeout scheduled by the `complete` callback
(script.js:386-388): `updatePillClasses([], ['finished'])`.  It touches
only the pill's CSS classes, never the sprint manager's state. -/
def finishedFlashTimeout (s : SprintState) (p : SprintPill) :
    SprintState × SprintPill :=
  (s, { p with finished := false })

/-- `reset()` (script.js:456-480): stops and discards any timer, zeroes
every state field, sets `status = 'idle'` and clears all pill classes. -/
def sprintReset (s : SprintState) (p : SprintPill) :
    SprintState × SprintPill :=
  let _ := s
  (initialSprintState,
    { p with running := false, paused := false, finished := false })

/-- `end(userCancelled)` (script.js:481-493): computes
`wordsGained = Math.max(0, countWords(editor.value) - startWords)`,
calls `registerSprintResult` only when `!userCancelled && wordsGained >
0`, then resets the state.  The trailing `updateSessionStats()` is a
read-only display refresh (script.js:1210-1244) and performs no store
write. -/
def sprintEnd (userCancelled : Bool) (currentWordCount : Int)
    (s : SprintState) (p : SprintPill) (store : StoreState) :
    SprintState × SprintPill × StoreState :=
  let gained := max 0 (currentWordCount - s.startWords)
  let store1 :=
    if ¬userCancelled ∧ 0 < gained then registerSprintResult gained store
    else store
  let (s1, p1) := sprintReset s p
  (s1, p1, store1)

/-- The JavaScript regex class `\s`, as matched by `trim()` and
`split(/\s+/)`: ASCII whitespace, NBSP, and the Unicode space
separators. -/
def isJsWhitespace (c : Char) : Bool :=
  let n := c.toNat
  n = 32 || n = 9 || n = 10 || n = 11 || n = 12 || n = 13 || n = 0xa0 ||
  n = 0x1680 || (0x2000 ≤ n && n ≤ 0x200a) || n = 0x2028 || n = 0x2029 ||
  n = 0x202f || n = 0x205f || n = 0x3000 || n = 0xfeff

/-- The em dash character U+2014 targeted by the first `replace` in
`countWords` (script.js:565; the character appears double-encoded in the
shipped file but is the em dash in the regex). -/
def emDash : Char := Char.ofNat 0x2014

/-- `text.replace(/—/g, ' ')` (script.js:565): each em dash becomes a
single space. -/
def replaceEmDashes (l : List Char) : List Char :=
  l.map fun c => if c = emDash then ' ' else c

/-- The class `[\n\t]` of the second `replace` in `countWords`. -/
def isNlTab (c : Char) : Bool :=
  c = '\n' || c = '\t'

/-- `.replace(/[\n\t]+/g, ' ')` (script.js:565): each maximal run of
newlines and tabs becomes a single space. -/
def collapseNlTab : List Char → List Char
  | [] => []
  | [c] => if isNlTab c then [' '] else [c]
  | c :: d :: rest =>
    if isNlTab c then
      if isNlTab d then collapseNlTab (d :: rest)
      else ' ' :: collapseNlTab (d :: rest)
    else c :: collapseNlTab (d :: rest)

/-- JavaScript `String.prototype.trim`: strip `\s` characters from both
ends. -/
def jsTrim (l : List Char) : List Char :=
  ((l.dropWhile isJsWhitespace).reverse.dropWhile isJsWhitespace).reverse

/-- JavaScript `str.split(/\s+/)`: cut at each maximal whitespace run,
keeping the (possibly empty) substrings between the cuts; splitting the
empty string yields `[""]`.  `fuel` bounds the recursion; each step
consumes at least one character of `l`, so `l.length` is always
enough. -/
def jsSplitWsRuns (fuel : Nat) (l : List Char) : List (List Char) :=
  match fuel with
  | 0 => [l]
  | fuel + 1 =>
    let tok := l.takeWhile fun c => !isJsWhitespace c
    let rest := l.dropWhile fun c => !isJsWhitespace c
    match rest with
    | [] => [tok]
    | _ :: _ => tok :: jsSplitWsRuns fuel (rest.dropWhile isJsWhitespace)

/-- `countWords(text)` (script.js:563-568):
`text.replace(/—/g, ' ').replace(/[\n\t]+/g, ' ')`, then
`.trim().split(/\s+/).filter(Boolean)`, then
`arr.length ? arr.length : 0`.  `filter(Boolean)` drops exactly the
empty strings. -/
def countWords (text : String) : Nat :=
  let cleaned := collapseNlTab (replaceEmDashes text.data)
  let trimmed := jsTrim cleaned
  let arr := (jsSplitWsRuns trimmed.length trimmed).filter fun t => !t.isEmpty
  if arr.length = 0 then 0 else arr.length

/-- The pieces of `appState` that the words-typed-today path reads and
writes (script.js:595-613). -/
structure AppTypingView where
  peakWordCount : Int
  lastSyncedWords : Int
  lastWordCount : Int
deriving Repr, DecidableEq

/-- The body of `debouncedStatsUpdate` (script.js:743-753), run at fire
time with the word count the editor then holds:
`wordsGained = Math.max(0, currentWords - lastSyncedWords)`; only when
`wordsGained > 0` does it set `lastSyncedWords = currentWords` and run
`updateAllStatsTransaction(wordsGained)`. -/
def debouncedStatsUpdateRun (today currentWords : Int)
    (a : AppTypingView) (store : StoreState) : AppTypingView × StoreState :=
  let gained := max 0 (currentWords - a.lastSyncedWords)
  if 0 < gained then
    ({ a with lastSyncedWords := currentWords },
      updateAllStatsTransaction today gained store)
  else
    (a, store)

/-- The words-typed-today section of the editor `input` listener
(script.js:1364-1374): `currentCount = countWords(editor.value)`; only
when `currentCount > peakWordCount` does it raise the peak and schedule
`debouncedStatsUpdate()`; in every case it then records
`lastWordCount = currentCount`. -/
def editorInputWordsPath (today currentCount : Int)
    (a : AppTypingView) (store : StoreState) : AppTypingView × StoreState :=
  if a.peakWordCount < currentCount then
    let a1 := { a with peakWordCount := currentCount }
    let (a2, store1) := debouncedStatsUpdateRun today currentCount a1 store
    ({ a2 with lastWordCount := currentCount }, store1)
  else
    ({ a with lastWordCount := currentCount }, store)

/-- A sequence of editor input events on one day, each carrying the word
count the editor holds at that event. -/
def editorInputSeq (today : Int) (counts : List Int)
    (a : AppTypingView) (store : StoreState) : AppTypingView × StoreState :=
  counts.foldl (fun p c => editorInputWordsPath today c p.1 p.2) (a, store)

/-- Transcribed from the claimed streak rule, for comparison with the
code's `streakAdvance`: gap of exactly one calendar day continues the
streak, any other situation (no prior date, gap of two or more days, or
a negative gap) restarts it at 1. -/
def specStreakNextCount (today : Int) (s : StreakData) : Int :=
  match s.lastDate with
  | none => 1
  | some d => if today - d = 1 then s.count + 1 else 1

/-! ## Helper lemmas -/

/-- Projection of the transaction's committed streak write: the streak
key is rewritten (to `streakAdvance` of the current record) exactly when
the guard `wordsGained > 0 && lastDate !== todayStamp` passes. -/
theorem updateAllStatsTransaction_streakData (today g : Int) (st : StoreState) :
    (updateAllStatsTransaction today g st).streakData =
      if 0 < g ∧ (st.streakData.getD defaultStreak).lastDate ≠ some today then
        some (streakAdvance today (st.streakData.getD defaultStreak))
      else st.streakData := rfl

/-- The transaction never writes the typing-time key. -/
theorem updateAllStatsTransaction_typingTime (today g : Int) (st : StoreState) :
    (updateAllStatsTransaction today g st).typingTime = st.typingTime := rfl

/-- Projection of the transaction's committed session write: the stored
(or default) record, rolled over if stale, with `minutes` recomputed and
`wordsGained` added to `words`. -/
theorem updateAllStatsTransaction_sessionStats (today g : Int) (st : StoreState) :
    (updateAllStatsTransaction today g st).sessionStats =
      some
        { (if (st.sessionStats.getD (freshSession today)).date ≠ today then
              freshSession today
            else st.sessionStats.getD (freshSession today)) with
          minutes := Int.fdiv (typingMs st.typingTime) 60000
          words :=
            (if (st.sessionStats.getD (freshSession today)).date ≠ today then
                freshSession today
              else st.sessionStats.getD (freshSession today)).words + g } := rfl

/-- A transaction run on a day whose streak is already credited leaves
the streak key untouched. -/
theorem streak_same_day_step (today g : Int) (store : StoreState)
    (h : (streakOf store).lastDate = some today) :
    (updateAllStatsTransaction today g store).streakData = store.streakData := by
  unfold streakOf at h
  rw [updateAllStatsTransaction_streakData, if_neg]
  rintro ⟨-, hne⟩
  exact hne h

/-- One transaction never lowers `record`, and it preserves
`count ≤ record`. -/
theorem streak_step_record_mono (today g : Int) (st : StoreState) :
    (streakOf st).record ≤ (streakOf (updateAllStatsTransaction today g st)).record ∧
    ((streakOf st).count ≤ (streakOf st).record →
      (streakOf (updateAllStatsTransaction today g st)).count ≤
        (streakOf (updateAllStatsTransaction today g st)).record) := by
  unfold streakOf
  rw [updateAllStatsTransaction_streakData]
  split
  · simp only [Option.getD_some]
    unfold streakAdvance
    exact ⟨le_max_left _ _, fun _ => le_max_right _ _⟩
  · exact ⟨le_refl _, fun h => h⟩

/-- An input event whose word count does not exceed the session peak
only records `lastWordCount`; it leaves the store and the rest of the
app state untouched. -/
theorem editorInput_no_gain_step (today c : Int) (a : AppTypingView)
    (store : StoreState) (h : c ≤ a.peakWordCount) :
    editorInputWordsPath today c a store =
      ({ a with lastWordCount := c }, store) := by
  unfold editorInputWordsPath
  rw [if_neg (not_lt.mpr h)]

/-- `replaceEmDashes` is the identity on strings made of `\s`
whitespace (the em dash is not `\s`). -/
theorem replaceEmDashes_of_ws (l : List Char)
    (h : ∀ c ∈ l, isJsWhitespace c = true) : replaceEmDashes l = l := by
  induction l with
  | nil => rfl
  | cons c tl ih =>
    have hc : c ≠ emDash := by
      intro he
      have hw := h c (by simp)
      rw [he] at hw
      exact absurd hw (by decide)
    simp only [replaceEmDashes, List.map_cons, if_neg hc]
    have htl := ih fun x hx => h x (by simp [hx])
    unfold replaceEmDashes at htl
    rw [htl]

/-- Collapsing newline/tab runs maps an all-whitespace string to an
all-whitespace string (every emitted character is a space or an
original character). -/
theorem collapseNlTab_of_ws (l : List Char)
    (h : ∀ c ∈ l, isJsWhitespace c = true) :
    ∀ c ∈ collapseNlTab l, isJsWhitespace c = true := by
  induction l with
  | nil => simp [collapseNlTab]
  | cons c tl ih =>
    cases tl with
    | nil =>
      intro x hx
      by_cases hnt : isNlTab c = true
      · have hxs : x = ' ' := by simpa [collapseNlTab, hnt] using hx
        rw [hxs]
        decide
      · have hxc : x = c := by simpa [collapseNlTab, hnt] using hx
        rw [hxc]
        exact h c (by simp)
    | cons d rest =>
      have htl : ∀ x ∈ d :: rest, isJsWhitespace x = true :=
        fun x hx => h x (by simp [hx])
      intro x hx
      by_cases hc : isNlTab c = true
      · by_cases hd : isNlTab d = true
        · simp only [collapseNlTab, hc, hd, if_true] at hx
          exact ih htl x (by simpa using hx)
        · simp only [collapseNlTab, hc, hd] at hx
          rcases List.mem_cons.mp (by simpa using hx) with h1 | h2
          · rw [h1]; decide
          · exact ih htl x h2
      · simp only [collapseNlTab, hc] at hx
        rcases List.mem_cons.mp (by simpa using hx) with h1 | h2
        · rw [h1]; exact h c (by simp)
        · exact ih htl x h2

/-- `trim` of an all-whitespace string is empty. -/
theorem jsTrim_of_ws (l : List Char)
    (h : ∀ c ∈ l, isJsWhitespace c = true) : jsTrim l = [] := by
  unfold jsTrim
  have h1 : l.dropWhile isJsWhitespace = [] := by
    rw [List.dropWhile_eq_nil_iff]
    intro x hx
    exact h x hx
  rw [h1]
  rfl

/-! ## Claim theorems -/

/-- C1: in any atomic stats transaction with `wordsGained > 0` whose
streak was last credited on a day other than today, the streak count
becomes `count + 1` when the calendar-day gap to `lastDate` is exactly
1 and is reset to 1 otherwise (no prior date, gap of 2+ days, or a
negative gap); `lastDate` becomes today, `record` becomes
`max(record, count)`, and the updated `StreakData` is persisted.  The
hypothesis `1 < today` says only that the current date is a real modern
date (later than 1970-01-02, the one stamp that `new Date(null)`
aliasing could confuse with a one-day gap). -/
theorem streak_day_transition (today g : Int) (store : StoreState)
    (hg : 0 < g) (hne : (streakOf store).lastDate ≠ some today)
    (htoday : 1 < today) :
    (updateAllStatsTransaction today g store).streakData =
      some { count := specStreakNextCount today (streakOf store)
             record := max (streakOf store).record
               (specStreakNextCount today (streakOf store))
             lastDate := some today } := by
  unfold streakOf at hne ⊢
  rw [updateAllStatsTransaction_streakData, if_pos ⟨hg, hne⟩]
  unfold streakAdvance specStreakNextCount jsDateValue
  cases h : (store.streakData.getD defaultStreak).lastDate with
  | none =>
    have hd : ¬(today = 1) := by omega
    simp [h, hd]
  | some d =>
    simp [h]

/-- C1 witness: a streak last credited yesterday (day 19999) advances
from count 3 to count 4 on day 20000. -/
theorem streak_day_transition_witness :
    (0 : Int) < 5 ∧ (1 : Int) < 20000 ∧
    (updateAllStatsTransaction 20000 5
        { typingTime := none, sessionStats := none,
          streakData := some { count := 3, record := 4, lastDate := some 19999 } }).streakData =
      some { count := 4, record := 4, lastDate := some 20000 } := by
  refine ⟨by decide, by decide, ?_⟩
  have h := streak_day_transition 20000 5
      { typingTime := none, sessionStats := none,
        streakData := some { count := 3, record := 4, lastDate := some 19999 } }
      (by decide) (by decide) (by decide)
  rw [h]
  rfl

/-- C2: when the stored streak's `lastDate` already equals today, any
number of atomic stats transactions run that day leave the streak key
(count, record and lastDate) exactly as it was — in particular two
same-day calls increment the count at most once across both. -/
theorem streak_same_day_idempotent (today : Int) (gs : List Int)
    (store : StoreState) (h : (streakOf store).lastDate = some today) :
    (applyWordDeltaSeq today gs store).streakData = store.streakData := by
  induction gs generalizing store with
  | nil => rfl
  | cons g rest ih =>
    have hstep := streak_same_day_step today g store h
    have h2 : (streakOf (updateAllStatsTransaction today g store)).lastDate =
        some today := by
      unfold streakOf at h ⊢
      rw [hstep]
      exact h
    show (applyWordDeltaSeq today rest
        (updateAllStatsTransaction today g store)).streakData = store.streakData
    rw [ih _ h2, hstep]

/-- C2 witness: two transactions on day 100 with `lastDate = 100` leave
the streak record exactly `{count 4, record 6, lastDate 100}`. -/
theorem streak_same_day_idempotent_witness :
    (streakOf
        { typingTime := none, sessionStats := none,
          streakData := some { count := 4, record := 6, lastDate := some 100 } }).lastDate =
      some 100 ∧
    (applyWordDeltaSeq 100 [2, 3]
        { typingTime := none, sessionStats := none,
          streakData := some { count := 4, record := 6, lastDate := some 100 } }).streakData =
      some { count := 4, record := 6, lastDate := some 100 } := by
  refine ⟨by decide, ?_⟩
  have h := streak_same_day_idempotent 100 [2, 3]
      { typingTime := none, sessionStats := none,
        streakData := some { count := 4, record := 6, lastDate := some 100 } }
      (by decide)
  exact h.trans rfl

/-- C4: across every sequence of atomic stats transactions the streak's
`record` never decreases, and `record ≥ count` holds after the sequence
provided it held initially. -/
theorem streak_record_monotone_invariant (ops : List (Int × Int))
    (store : StoreState)
    (h : (streakOf store).count ≤ (streakOf store).record) :
    (streakOf store).record ≤ (streakOf (applyStatsSeq ops store)).record ∧
    (streakOf (applyStatsSeq ops store)).count ≤
      (streakOf (applyStatsSeq ops store)).record := by
  induction ops generalizing store with
  | nil => exact ⟨le_refl _, h⟩
  | cons op rest ih =>
    have hs := streak_step_record_mono op.1 op.2 store
    have hrest := ih (updateAllStatsTransaction op.1 op.2 store) (hs.2 h)
    exact ⟨le_trans hs.1 hrest.1, hrest.2⟩

/-- C4 witness: a two-day sequence (a continuation on day 10, then a
second gain on day 11) never lowers `record`, and `record ≥ count`
still holds at the end. -/
theorem streak_record_monotone_invariant_witness :
    (streakOf
        { typingTime := none, sessionStats := none,
          streakData := some { count := 2, record := 4, lastDate := some 9 } }).count ≤
      (streakOf
        { typingTime := none, sessionStats := none,
          streakData := some { count := 2, record := 4, lastDate := some 9 } }).record ∧
    (streakOf
        { typingTime := none, sessionStats := none,
          streakData := some { count := 2, record := 4, lastDate := some 9 } }).record ≤
      (streakOf (applyStatsSeq [(10, 5), (11, 3)]
        { typingTime := none, sessionStats := none,
          streakData := some { count := 2, record := 4, lastDate := some 9 } })).record ∧
    (streakOf (applyStatsSeq [(10, 5), (11, 3)]
        { typingTime := none, sessionStats := none,
          streakData := some { count := 2, record := 4, lastDate := some 9 } })).count ≤
      (streakOf (applyStatsSeq [(10, 5), (11, 3)]
        { typingTime := none, sessionStats := none,
          streakData := some { count := 2, record := 4, lastDate := some 9 } })).record := by
  refine ⟨by decide, ?_⟩
  have h := streak_record_monotone_invariant [(10, 5), (11, 3)]
      { typingTime := none, sessionStats := none,
        streakData := some { count := 2, record := 4, lastDate := some 9 } }
      (by decide)
  exact ⟨h.1, h.2⟩

/-- C3 counterexample: with today being day 6, `registerSprintResult`
applied to a stored session record dated day 5 increments `sprints` on
the stale record in place — the result keeps the stale date and the old
nonzero counters, instead of being replaced by a fresh zeroed record
first as the claim requires of both update operations. -/
theorem registerSprintResult_stale_counterexample :
    (registerSprintResult 4
        { typingTime := none
          sessionStats :=
            some { date := 5, words := 7, minutes := 3, sprints := 2, bestSprint := 9 }
          streakData := none }).sessionStats =
      some { date := 5, words := 7, minutes := 3, sprints := 3, bestSprint := 9 } ∧
    (5 : Int) ≠ 6 ∧ (7 : Int) ≠ 0 := by
  refine ⟨rfl, by decide, by decide⟩

/-- C3 amended: only the atomic stats transaction
(`updateAllStatsTransaction`) replaces a stale-dated session record
with a fresh zeroed record before applying its delta;
`registerSprintResult` updates whatever record is stored in place,
performing no date check at all. -/
theorem stale_session_rollover_amended :
    (∀ (today g : Int) (store : StoreState) (sess : SessionStats),
        store.sessionStats = some sess → sess.date ≠ today →
        (updateAllStatsTransaction today g store).sessionStats =
          some { date := today, words := g
                 minutes := Int.fdiv (typingMs store.typingTime) 60000
                 sprints := 0, bestSprint := 0 }) ∧
    (∀ (g : Int) (store : StoreState) (sess : SessionStats),
        store.sessionStats = some sess →
        (registerSprintResult g store).sessionStats =
          some { sess with sprints := sess.sprints + 1
                           bestSprint := max sess.bestSprint g }) := by
  constructor
  · intro today g store sess hs hd
    rw [updateAllStatsTransaction_sessionStats, hs]
    simp only [Option.getD_some, if_pos hd]
    simp [freshSession]
  · intro g store sess hs
    unfold registerSprintResult
    rw [hs]

/-- C3 amended witness: a record dated day 5 processed on day 7 — the
transaction resets it to a fresh day-7 record carrying only the new
delta, while `registerSprintResult` bumps the stale record in place. -/
theorem stale_session_rollover_amended_witness :
    ({ typingTime := some { date := 7, time := 120000 },
       sessionStats := some { date := 5, words := 7, minutes := 3, sprints := 2, bestSprint := 9 },
       streakData := none } : StoreState).sessionStats =
      some { date := 5, words := 7, minutes := 3, sprints := 2, bestSprint := 9 } ∧
    (5 : Int) ≠ 7 ∧
    (updateAllStatsTransaction 7 4
        { typingTime := some { date := 7, time := 120000 },
          sessionStats := some { date := 5, words := 7, minutes := 3, sprints := 2, bestSprint := 9 },
          streakData := none }).sessionStats =
      some { date := 7, words := 4, minutes := 2, sprints := 0, bestSprint := 0 } ∧
    (registerSprintResult 11
        { typingTime := some { date := 7, time := 120000 },
          sessionStats := some { date := 5, words := 7, minutes := 3, sprints := 2, bestSprint := 9 },
          streakData := none }).sessionStats =
      some { date := 5, words := 7, minutes := 3, sprints := 3, bestSprint := 11 } := by
  refine ⟨rfl, by decide, ?_, ?_⟩
  · have h := stale_session_rollover_amended.1 7 4
        { typingTime := some { date := 7, time := 120000 },
          sessionStats := some { date := 5, words := 7, minutes := 3, sprints := 2, bestSprint := 9 },
          streakData := none }
        { date := 5, words := 7, minutes := 3, sprints := 2, bestSprint := 9 }
        rfl (by decide)
    rw [h]
    rfl
  · have h := stale_session_rollover_amended.2 11
        { typingTime := some { date := 7, time := 120000 },
          sessionStats := some { date := 5, words := 7, minutes := 3, sprints := 2, bestSprint := 9 },
          streakData := none }
        { date := 5, words := 7, minutes := 3, sprints := 2, bestSprint := 9 }
        rfl
    rw [h]
    rfl

/-- C5 counterexample: a sprint started and run to natural completion,
followed by the short display delay, still has status `finished` — not
`idle` as the claim asserts (the 500 ms timeout only clears the pill's
CSS class; no code path sets the status back to idle). -/
theorem sprint_finish_not_idle_counterexample :
    ((finishedFlashTimeout
        (sprintComplete 650
          (sprintStart 25 500 0 initialSprintState
            { running := false, paused := false, finished := false }).1
          (sprintStart 25 500 0 initialSprintState
            { running := false, paused := false, finished := false }).2
          { typingTime := none, sessionStats := none, streakData := none }).1
        (sprintComplete 650
          (sprintStart 25 500 0 initialSprintState
            { running := false, paused := false, finished := false }).1
          (sprintStart 25 500 0 initialSprintState
            { running := false, paused := false, finished := false }).2
          { typingTime := none, sessionStats := none, streakData := none }).2.1).1).status =
      SprintStatus.finished ∧
    SprintStatus.finished ≠ SprintStatus.idle := by
  exact ⟨rfl, by decide⟩

/-- C5 amended: when the countdown reaches zero the state machine
transitions running → finished; the short delay that follows is
display-only — it clears the `finished` pill class and leaves the
sprint state (in particular its status, still `finished`) untouched.
The status returns to idle only through an explicit `reset`. -/
theorem sprint_finish_display_only_amended :
    (∀ (count : Int) (s : SprintState) (p : SprintPill) (store : StoreState),
        (sprintComplete count s p store).1.status = SprintStatus.finished) ∧
    (∀ (s : SprintState) (p : SprintPill),
        (finishedFlashTimeout s p).1 = s ∧
        (finishedFlashTimeout s p).2.finished = false) ∧
    (∀ (s : SprintState) (p : SprintPill),
        (sprintReset s p).1.status = SprintStatus.idle) := by
  exact ⟨fun _ _ _ _ => rfl, fun _ _ => ⟨rfl, rfl⟩, fun _ _ => rfl⟩

/-- C6: on natural completion of a sprint started with
`start(minutes, startCount)`, `wordsGained` equals
`max(0, finalCount - startCount)` and, provided a session record is
stored, `sprints` is incremented by exactly 1 while `bestSprint`
becomes the maximum of its previous value and `wordsGained`. -/
theorem sprint_completion_accounting (minutes startCount finalCount now : Int)
    (s : SprintState) (p : SprintPill) (store : StoreState)
    (sess : SessionStats) (hs : store.sessionStats = some sess) :
    (sprintComplete finalCount (sprintStart minutes startCount now s p).1
        (sprintStart minutes startCount now s p).2 store).1.wordsGained =
      max 0 (finalCount - startCount) ∧
    (sprintComplete finalCount (sprintStart minutes startCount now s p).1
        (sprintStart minutes startCount now s p).2 store).2.2.sessionStats =
      some { sess with
             sprints := sess.sprints + 1
             bestSprint := max sess.bestSprint (max 0 (finalCount - startCount)) } := by
  unfold sprintComplete sprintStart registerSprintResult
  rw [hs]
  exact ⟨rfl, rfl⟩

/-- C6 witness: `start(25, 500)` with the word count at 650 on
completion gives `wordsGained = 150`, `sprints` going 2 → 3 and
`bestSprint = max(100, 150) = 150`. -/
theorem sprint_completion_accounting_witness :
    ({ typingTime := none,
       sessionStats := some { date := 20000, words := 300, minutes := 40, sprints := 2, bestSprint := 100 },
       streakData := none } : StoreState).sessionStats =
      some { date := 20000, words := 300, minutes := 40, sprints := 2, bestSprint := 100 } ∧
    (sprintComplete 650
        (sprintStart 25 500 0 initialSprintState
          { running := false, paused := false, finished := false }).1
        (sprintStart 25 500 0 initialSprintState
          { running := false, paused := false, finished := false }).2
        { typingTime := none,
          sessionStats := some { date := 20000, words := 300, minutes := 40, sprints := 2, bestSprint := 100 },
          streakData := none }).1.wordsGained = 150 ∧
    (sprintComplete 650
        (sprintStart 25 500 0 initialSprintState
          { running := false, paused := false, finished := false }).1
        (sprintStart 25 500 0 initialSprintState
          { running := false, paused := false, finished := false }).2
        { typingTime := none,
          sessionStats := some { date := 20000, words := 300, minutes := 40, sprints := 2, bestSprint := 100 },
          streakData := none }).2.2.sessionStats =
      some { date := 20000, words := 300, minutes := 40, sprints := 3, bestSprint := 150 } := by
  refine ⟨rfl, ?_, ?_⟩
  · have h := sprint_completion_accounting 25 500 650 0 initialSprintState
        { running := false, paused := false, finished := false }
        { typingTime := none,
          sessionStats := some { date := 20000, words := 300, minutes := 40, sprints := 2, bestSprint := 100 },
          streakData := none }
        { date := 20000, words := 300, minutes := 40, sprints := 2, bestSprint := 100 }
        rfl
    rw [h.1]
    rfl
  · have h := sprint_completion_accounting 25 500 650 0 initialSprintState
        { running := false, paused := false, finished := false }
        { typingTime := none,
          sessionStats := some { date := 20000, words := 300, minutes := 40, sprints := 2, bestSprint := 100 },
          streakData := none }
        { date := 20000, words := 300, minutes := 40, sprints := 2, bestSprint := 100 }
        rfl
    rw [h.2]
    rfl

/-- C7: `end(userCancelled = true)` discards the sprint's result: for
every sprint state and every store, the store after the call is exactly
the store before it — in particular the persisted `sprints` and
`bestSprint` counters are unchanged, no matter how many words the
sprint gained. -/
theorem sprint_cancel_discards_result (count : Int) (s : SprintState)
    (p : SprintPill) (store : StoreState) :
    (sprintEnd true count s p store).2.2 = store ∧
    ((sprintEnd true count s p store).2.2).sessionStats = store.sessionStats := by
  unfold sprintEnd
  simp

/-- C8: starting from a zeroed session record for today, applying the
atomic stats transaction with deltas `g1` then `g2` on the same day
gives `words = g1 + g2`, and applying them in the opposite order gives
the same total. -/
theorem same_day_additivity (today g1 g2 : Int) (tt : Option TypingTime)
    (sd : Option StreakData) (_h1 : 0 ≤ g1) (_h2 : 0 ≤ g2) :
    storedWords (updateAllStatsTransaction today g2 (updateAllStatsTransaction today g1
        { typingTime := tt, sessionStats := some (freshSession today),
          streakData := sd })) = some (g1 + g2) ∧
    storedWords (updateAllStatsTransaction today g1 (updateAllStatsTransaction today g2
        { typingTime := tt, sessionStats := some (freshSession today),
          streakData := sd })) = some (g1 + g2) := by
  constructor
  · unfold storedWords
    rw [updateAllStatsTransaction_sessionStats, updateAllStatsTransaction_sessionStats]
    simp [freshSession, updateAllStatsTransaction_typingTime]
  · unfold storedWords
    rw [updateAllStatsTransaction_sessionStats, updateAllStatsTransaction_sessionStats]
    simp [freshSession, updateAllStatsTransaction_typingTime]
    omega

/-- C8 witness: deltas 2 and 3 on day 50, in both orders, both give a
stored `words` of 5. -/
theorem same_day_additivity_witness :
    (0 : Int) ≤ 2 ∧ (0 : Int) ≤ 3 ∧
    storedWords (updateAllStatsTransaction 50 3 (updateAllStatsTransaction 50 2
        { typingTime := none, sessionStats := some (freshSession 50),
          streakData := none })) = some 5 ∧
    storedWords (updateAllStatsTransaction 50 2 (updateAllStatsTransaction 50 3
        { typingTime := none, sessionStats := some (freshSession 50),
          streakData := none })) = some 5 := by
  have h := same_day_additivity 50 2 3 none none (by decide) (by decide)
  exact ⟨by decide, by decide, h.1.trans (by decide), h.2.trans (by decide)⟩

/-- C9: the keystroke path runs the word-delta stats update only when
the current word count strictly exceeds the session peak
(`peakWordCount`): (1) an event at or below the peak changes nothing
but `lastWordCount`; (2) an event above the peak applies exactly the
delta `max(0, currentCount - lastSyncedWords)` through the atomic
transaction (and nothing when that delta is zero); (3) any sequence of
events at or below the initial peak — e.g. deleting words and retyping
them — leaves the store untouched. -/
theorem keystroke_peak_gating (today : Int) :
    (∀ (c : Int) (a : AppTypingView) (store : StoreState),
        c ≤ a.peakWordCount →
        editorInputWordsPath today c a store =
          ({ a with lastWordCount := c }, store)) ∧
    (∀ (c : Int) (a : AppTypingView) (store : StoreState),
        a.peakWordCount < c →
        (editorInputWordsPath today c a store).2 =
          if 0 < max 0 (c - a.lastSyncedWords) then
            updateAllStatsTransaction today (max 0 (c - a.lastSyncedWords)) store
          else store) ∧
    (∀ (counts : List Int) (a : AppTypingView) (store : StoreState),
        (∀ c ∈ counts, c ≤ a.peakWordCount) →
        (editorInputSeq today counts a store).2 = store) := by
  refine ⟨editorInput_no_gain_step today, ?_, ?_⟩
  · intro c a store h
    simp only [editorInputWordsPath, debouncedStatsUpdateRun]
    rw [if_pos h]
    split_ifs with hg
    · rfl
    · rfl
  · intro counts a store h
    induction counts generalizing a store with
    | nil => rfl
    | cons c rest ih =>
      have hc := h c (by simp)
      show (editorInputSeq today rest
          (editorInputWordsPath today c a store).1
          (editorInputWordsPath today c a store).2).2 = store
      rw [editorInput_no_gain_step today c a store hc]
      exact ih _ _ fun x hx => h x (by simp [hx])

/-- C9 witness: with peak 10 and last-synced 8 — a drop to 7 changes
only `lastWordCount`; a rise to 12 applies delta `max(0, 12 - 8) = 4`;
the below-peak sequence 3, 2, 10 leaves the store untouched. -/
theorem keystroke_peak_gating_witness :
    (7 : Int) ≤ 10 ∧
    editorInputWordsPath 5 7
        { peakWordCount := 10, lastSyncedWords := 8, lastWordCount := 9 }
        { typingTime := none, sessionStats := none, streakData := none } =
      ({ peakWordCount := 10, lastSyncedWords := 8, lastWordCount := 7 },
        { typingTime := none, sessionStats := none, streakData := none }) ∧
    (10 : Int) < 12 ∧
    (editorInputWordsPath 5 12
        { peakWordCount := 10, lastSyncedWords := 8, lastWordCount := 9 }
        { typingTime := none, sessionStats := none, streakData := none }).2 =
      updateAllStatsTransaction 5 4
        { typingTime := none, sessionStats := none, streakData := none } ∧
    (editorInputSeq 5 [3, 2, 10]
        { peakWordCount := 10, lastSyncedWords := 8, lastWordCount := 9 }
        { typingTime := none, sessionStats := none, streakData := none }).2 =
      { typingTime := none, sessionStats := none, streakData := none } := by
  have h := keystroke_peak_gating 5
  refine ⟨by decide, ?_, by decide, ?_, ?_⟩
  · exact (h.1 7 { peakWordCount := 10, lastSyncedWords := 8, lastWordCount := 9 }
      { typingTime := none, sessionStats := none, streakData := none }
      (by decide)).trans rfl
  · exact (h.2.1 12 { peakWordCount := 10, lastSyncedWords := 8, lastWordCount := 9 }
      { typingTime := none, sessionStats := none, streakData := none }
      (by decide)).trans (by decide)
  · exact h.2.2 [3, 2, 10]
      { peakWordCount := 10, lastSyncedWords := 8, lastWordCount := 9 }
      { typingTime := none, sessionStats := none, streakData := none } (by decide)

/-- C10: `countWords` is a pure function of its input that returns 0 on
every empty or whitespace-only string and counts 4 words in
`"  a   b\tc\n d "` (with a literal tab and newline). -/
theorem countWords_pure_splitting :
    (∀ s : String, (∀ c ∈ s.data, isJsWhitespace c = true) → countWords s = 0) ∧
    countWords "" = 0 ∧
    countWords "  a   b\tc\n d " = 4 := by
  refine ⟨?_, by decide, by decide⟩
  intro s h
  have h1 := replaceEmDashes_of_ws s.data h
  have h2 : ∀ c ∈ collapseNlTab (replaceEmDashes s.data),
      isJsWhitespace c = true := by
    rw [h1]
    exact collapseNlTab_of_ws s.data h
  have h3 : jsTrim (collapseNlTab (replaceEmDashes s.data)) = [] :=
    jsTrim_of_ws _ h2
  simp only [countWords]
  rw [h3]
  rfl

/-- C10 witness: the whitespace-only string `" \t\n  "` counts as 0
words. -/
theorem countWords_pure_splitting_witness :
    (∀ c ∈ (" \t\n  " : String).data, isJsWhitespace c = true) ∧
    countWords " \t\n  " = 0 := by
  exact ⟨by decide, countWords_pure_splitting.1 " \t\n  " (by decide)⟩
